import Mathlib

/-!
Verification development for the soar-app-linter static-analysis engine.

The definitions below are a shallow embedding of the Python source under
`soar_app_linter/plugins/`: each `def` mirrors one Python function or method,
with astroid syntax-tree nodes modelled by the inductive types `Const`,
`Expr`, `Stmt`, and ancestor chains by `Anc`.  Checker state (alias tables,
scope sets) is explicit, and each pylint visitor callback becomes a pure
function from state and node to updated state and emitted diagnostics.
-/

namespace SoarLinter

/-- Python literal constants carried by astroid `Const` nodes. -/
inductive Const where
  | str (s : String)
  | int (n : Int)
  | bool (b : Bool)
  | noneC
  deriving DecidableEq, Repr

/-- Python truthiness of a literal constant (`bool(value)` in Python). -/
def Const.truthy : Const → Bool
  | .str s => s ≠ ""
  | .int n => n ≠ 0
  | .bool b => b
  | .noneC => false

/-- Python `repr` of a literal constant, as astroid's `as_string` prints it. -/
def Const.reprStr : Const → String
  | .str s => "\x27" ++ s ++ "\x27"
  | .int n => toString n
  | .bool b => if b then "True" else "False"
  | .noneC => "None"

/-- Expression nodes of the astroid syntax tree, restricted to the kinds the
checkers inspect.  `call` keywords are `(arg, value)` pairs where `arg = none`
models a `**kwargs` splat (astroid represents it as a keyword whose `arg` is
`None`). -/
inductive Expr where
  | name (id : String)
  | attribute (expr : Expr) (attrname : String)
  | call (func : Expr) (args : List Expr) (keywords : List (Option String × Expr))
  | const (value : Const)
  | subscript (value : Expr) (slice : Expr)
  | binOp (left : Expr) (op : String) (right : Expr)
  | boolOp (op : String) (values : List Expr)
  | unaryOp (op : String) (operand : Expr)
  | compare (left : Expr) (rest : List (String × Expr))
  | listLit (elts : List Expr)
  | setLit (elts : List Expr)
  | dictLit (items : List (Expr × Expr))
  | starred (e : Expr)
  deriving Repr

mutual

/-- astroid's `NodeNG.as_string` pretty-printer, on the expression subset. -/
def Expr.asString : Expr → String
  | .name id => id
  | .attribute e a => e.asString ++ "." ++ a
  | .call f args kws =>
      f.asString ++ "(" ++ String.intercalate ", " (exprListStrings args ++ kwListStrings kws) ++ ")"
  | .const v => v.reprStr
  | .subscript v s => v.asString ++ "[" ++ s.asString ++ "]"
  | .binOp l op r => l.asString ++ " " ++ op ++ " " ++ r.asString
  | .boolOp op vs => String.intercalate (" " ++ op ++ " ") (exprListStrings vs)
  | .unaryOp op e => (if op = "not" then "not " else op) ++ e.asString
  | .compare l rest => l.asString ++ String.intercalate "" (cmpListStrings rest)
  | .listLit es => "[" ++ String.intercalate ", " (exprListStrings es) ++ "]"
  | .setLit es => "\x7b" ++ String.intercalate ", " (exprListStrings es) ++ "\x7d"
  | .dictLit items => "\x7b" ++ String.intercalate ", " (pairListStrings items) ++ "\x7d"
  | .starred e => "*" ++ e.asString

def exprListStrings : List Expr → List String
  | [] => []
  | e :: es => e.asString :: exprListStrings es

def kwListStrings : List (Option String × Expr) → List String
  | [] => []
  | (none, v) :: rest => ("**" ++ v.asString) :: kwListStrings rest
  | (some a, v) :: rest => (a ++ "=" ++ v.asString) :: kwListStrings rest

def cmpListStrings : List (String × Expr) → List String
  | [] => []
  | (op, v) :: rest => (" " ++ op ++ " " ++ v.asString) :: cmpListStrings rest

def pairListStrings : List (Expr × Expr) → List String
  | [] => []
  | (k, v) :: rest => (k.asString ++ ": " ++ v.asString) :: pairListStrings rest

end

mutual

/-- Whether a call node occurs anywhere in an expression subtree.  This is
`AvoidGlobalVars._is_nonstatic_condition`: true if the node is a `Call`,
otherwise the recursive disjunction over `get_children()`. -/
def Expr.containsCall : Expr → Bool
  | .name _ => false
  | .attribute e _ => e.containsCall
  | .call _ _ _ => true
  | .const _ => false
  | .subscript v s => v.containsCall || s.containsCall
  | .binOp l _ r => l.containsCall || r.containsCall
  | .boolOp _ vs => exprListContainsCall vs
  | .unaryOp _ e => e.containsCall
  | .compare l rest => l.containsCall || cmpListContainsCall rest
  | .listLit es => exprListContainsCall es
  | .setLit es => exprListContainsCall es
  | .dictLit items => pairListContainsCall items
  | .starred e => e.containsCall

def exprListContainsCall : List Expr → Bool
  | [] => false
  | e :: es => e.containsCall || exprListContainsCall es

def cmpListContainsCall : List (String × Expr) → Bool
  | [] => false
  | (_, v) :: rest => v.containsCall || cmpListContainsCall rest

def pairListContainsCall : List (Expr × Expr) → Bool
  | [] => false
  | (k, v) :: rest => k.containsCall || v.containsCall || pairListContainsCall rest

end

/-- Python `s.startswith(pre)`, computed character-by-character so that the
kernel can evaluate it. -/
def pyStartsWith (s pre : String) : Bool :=
  pre.data.isPrefixOf s.data

/-- Python `s.split(".")[-1]`: the characters after the last dot (the whole
string when no dot occurs), computed character-by-character. -/
def pyLastDotComponent (s : String) : String :=
  ⟨s.data.foldl (fun acc c => if c == '.' then [] else acc ++ [c]) []⟩

/-- Python `s.lower()`, computed character-by-character. -/
def pyLower (s : String) : String :=
  ⟨s.data.map Char.toLower⟩

/-- The per-file alias table `AvoidDeprecationBase.alias_map`, a Python dict
from local name to canonical dotted path.  Dict assignment is modelled by
consing and lookup by first match, so later writes shadow earlier ones. -/
abbrev AliasMap := List (String × String)

/-- Python `dict.get(key, default)` on the alias map (most recent write wins). -/
def aliasGet (m : AliasMap) (key default : String) : String :=
  match m.find? (fun p => p.1 == key) with
  | some p => p.2
  | none => default

/-- Python `dict.get(key)` with no default, returning `none` when unbound. -/
def aliasFind (m : AliasMap) (key : String) : Option String :=
  (m.find? (fun p => p.1 == key)).map (·.2)

/-- Python `alias_map[key] = value`. -/
def aliasInsert (m : AliasMap) (key value : String) : AliasMap :=
  (key, value) :: m

/-- `AvoidDeprecationBase._resolve_full_name`: resolve an expression node to
its canonical dotted path.  A `Name` resolves through the alias map with the
literal text as fallback; an `Attribute` appends `.attrname` to the resolution
of its base (just the attribute name when the base resolves empty); a `Call`
resolves to its callee; every other node kind yields the empty string.  The
function is total — the Python method returns on every branch and performs no
fallible operation, so it cannot raise. -/
def resolveFullName (m : AliasMap) : Expr → String
  | .name id => aliasGet m id id
  | .attribute e a =>
      let baseName := resolveFullName m e
      if baseName = "" then a else baseName ++ "." ++ a
  | .call f _ _ => resolveFullName m f
  | _ => ""

/-- A diagnostic collected by the sink: pylint message id plus the message
arguments the checker passed (`args=`); location is carried by the emission
position in the returned list. -/
structure Diag where
  code : String
  args : List String
  deriving DecidableEq, Repr

/-- Assignment targets, as the source distinguishes them: `AssignName`,
`AssignAttr` (whose `as_string` is the printed attribute access), and every
other target kind (tuples, subscripts, …) which the checkers ignore. -/
inductive Target where
  | assignName (name : String)
  | assignAttr (expr : Expr) (attrname : String)
  | otherTarget
  deriving Repr

/-- astroid `AssignAttr.as_string()`. -/
def Target.attrString : Expr → String → String
  | e, a => e.asString ++ "." ++ a

/-- The body of the loop in `AvoidDeprecationBase.visit_assign` for one
target: an `AssignName` is bound to the resolved right-hand side, or to its
own name when the resolution is empty; an `AssignAttr` is bound (keyed by its
printed form) to the resolved right-hand side unconditionally; other target
kinds leave the table unchanged.  The right-hand side is re-resolved against
the current table for each target, as in the source loop. -/
def recordTarget (m : AliasMap) (t : Target) (value : Expr) : AliasMap :=
  let nodeValue := resolveFullName m value
  match t with
  | .assignName n => aliasInsert m n (if nodeValue = "" then n else nodeValue)
  | .assignAttr e a => aliasInsert m (Target.attrString e a) nodeValue
  | .otherTarget => m

/-- `AvoidDeprecationBase.visit_assign`: record every target of the
assignment in turn. -/
def visitAssignBase (m : AliasMap) (targets : List Target) (value : Expr) : AliasMap :=
  targets.foldl (fun acc t => recordTarget acc t value) m

/-- `AvoidDeprecationBase.visit_import`: each `import name as alias` entry
binds `alias or name` to `name`. -/
def visitImportBase (m : AliasMap) (names : List (String × Option String)) : AliasMap :=
  names.foldl (fun acc p => aliasInsert acc (p.2.getD p.1) p.1) m

/-- `AvoidDeprecationBase.visit_importfrom`: each `from module import name as
alias` entry binds `alias or name` to `module.name`. -/
def visitImportFromBase (m : AliasMap) (modname : String)
    (names : List (String × Option String)) : AliasMap :=
  names.foldl (fun acc p => aliasInsert acc (p.2.getD p.1) (modname ++ "." ++ p.1)) m

/-! ## Generic banned-function checker (`plugins/banned_functions.py`) -/

/-- `BannedFunctions.__init__`: flatten the `BANNED_FUNCTIONS_MAP` into the
set of fully-qualified banned paths — `module.member` for every member, plus
the bare module path when its member set is empty. -/
def flattenBanned : List (String × List String) → List String
  | [] => []
  | (k, v) :: rest =>
      v.map (fun v1 => k ++ "." ++ v1) ++ (if v.isEmpty then [k] else []) ++ flattenBanned rest

/-- The visit events a `BannedFunctions`-family checker receives during one
pre-order walk, carrying exactly the node data its callbacks read. -/
inductive BFEvent where
  | importEvt (names : List (String × Option String))
  | importFromEvt (modname : String) (names : List (String × Option String))
  | assignEvt (targets : List Target) (value : Expr)
  | callEvt (func : Expr) (args : List Expr) (keywords : List (Option String × Expr))
  deriving Repr

/-- Whether an event is a call visit (the only event kind that does not touch
the alias table in this checker family). -/
def BFEvent.isCallEvt : BFEvent → Bool
  | .callEvt _ _ _ => true
  | _ => false

/-- One visitor dispatch of a `BannedFunctions` checker: imports and
assignments update the inherited alias table and emit nothing;
`visit_call` resolves the call node and emits the checker's single fixed
message exactly when the resolved path is in the flattened banned set. -/
def bfStep (banned : List String) (message : String) (m : AliasMap) :
    BFEvent → AliasMap × List Diag
  | .importEvt names => (visitImportBase m names, [])
  | .importFromEvt modname names => (visitImportFromBase m modname names, [])
  | .assignEvt targets value => (visitAssignBase m targets value, [])
  | .callEvt f args kws =>
      (m, if resolveFullName m (.call f args kws) ∈ banned then [⟨message, []⟩] else [])

/-- One analysis pass of a `BannedFunctions` checker over a visit-event
sequence, threading the alias table and concatenating emitted diagnostics. -/
def bfRun (banned : List String) (message : String) (m : AliasMap) :
    List BFEvent → AliasMap × List Diag
  | [] => (m, [])
  | e :: es =>
      let step := bfStep banned message m e
      let rest := bfRun banned message step.1 es
      (rest.1, step.2 ++ rest.2)

/-- `AvoidFilesystemAccess.BANNED_FUNCTIONS_MAP`. -/
def FILESYSTEM_BANNED_MAP : List (String × List String) :=
  [("open", []),
   ("os", ["access", "chdir", "chflags", "chmod", "chown", "chroot", "fchdir", "fwalk",
           "get_exec_path", "getcwd", "getcwdb", "lchflags", "lchmod", "lchown", "link",
           "listdir", "lstat", "major", "makedirs", "minor", "mkdev", "mkdir", "mkfifo",
           "mknod", "open", "pathconf", "readlink", "remove", "rename", "renames",
           "replace", "rmdir", "scandir", "stat", "statvfs", "symlink", "sync", "unlink",
           "utime", "walk"]),
   ("pathlib.Path", ["absolute", "chmod", "cwd", "exists", "expanduser", "glob", "group",
           "hardlink_to", "home", "is_block_device", "is_char_device", "is_dir",
           "is_fifo", "is_file", "is_mount", "is_socket", "is_symlink", "iterdir",
           "lchmod", "lstat", "mkdir", "open", "owner", "read_bytes", "read_text",
           "readlink", "rename", "replace", "resolve", "rglob", "rmdir", "samefile",
           "stat", "symlink_to", "touch", "unlink", "walk", "write_bytes", "write_text"]),
   ("shutil", ["chown", "copy", "copy2", "copyfile", "copyfileobj", "copymode",
           "copystat", "copytree", "diskusage", "make_archive", "move", "rmtree",
           "unpack_archive", "which"]),
   ("tempfile", ["NamedTemporaryFile", "SpooledTemporaryFile", "TemporaryDirectory",
           "TemporaryFile", "gettempdir", "gettempdirb", "gettempprefix",
           "gettempprefixb", "mkdtemp", "mkstemp"])]

/-- `AvoidFilesystemAccess.MESSAGE`. -/
def FILESYSTEM_MESSAGE : String := "no-filesystem-access"

/-! ## Infinite-loop checker (`plugins/avoid_infinite_loops.py`) -/

/-- Statement nodes, with astroid's child structure: a `While` or `For` node
carries its body and its `else` clause (`orelse`) as separate child lists, an
`If` carries body and `orelse`, and a `FunctionDef` carries its decorator
expressions and body. -/
inductive Stmt where
  | breakStmt
  | returnStmt (value : Option Expr)
  | passStmt
  | exprStmt (e : Expr)
  | assignStmt (targets : List Target) (value : Expr)
  | whileStmt (test : Expr) (body : List Stmt) (orelse : List Stmt)
  | forStmt (target : Expr) (iter : Expr) (body : List Stmt) (orelse : List Stmt)
  | ifStmt (test : Expr) (body : List Stmt) (orelse : List Stmt)
  | funcDefStmt (fname : String) (decorators : List Expr) (body : List Stmt)
  deriving Repr

mutual

/-- `AvoidInfiniteLoops.does_it_break`: true on a `Break` node; otherwise the
disjunction over the node's children, where a child that is itself a `While`
or `For` node is skipped entirely (its whole subtree, `else` clause included,
is not searched).  Expression children cannot contain `break`, so only
statement children are walked. -/
def doesItBreak : Stmt → Bool
  | .breakStmt => true
  | .returnStmt _ => false
  | .passStmt => false
  | .exprStmt _ => false
  | .assignStmt _ _ => false
  | .whileStmt _ body orelse => doesItBreakList body || doesItBreakList orelse
  | .forStmt _ _ body orelse => doesItBreakList body || doesItBreakList orelse
  | .ifStmt _ body orelse => doesItBreakList body || doesItBreakList orelse
  | .funcDefStmt _ _ body => doesItBreakList body

def doesItBreakList : List Stmt → Bool
  | [] => false
  | .whileStmt _ _ _ :: rest => doesItBreakList rest
  | .forStmt _ _ _ _ :: rest => doesItBreakList rest
  | s :: rest => doesItBreak s || doesItBreakList rest

end

mutual

/-- `AvoidInfiniteLoops.does_it_return`: true on a `Return` node; otherwise
the disjunction over all children, with no skipping. -/
def doesItReturn : Stmt → Bool
  | .breakStmt => false
  | .returnStmt _ => true
  | .passStmt => false
  | .exprStmt _ => false
  | .assignStmt _ _ => false
  | .whileStmt _ body orelse => doesItReturnList body || doesItReturnList orelse
  | .forStmt _ _ body orelse => doesItReturnList body || doesItReturnList orelse
  | .ifStmt _ body orelse => doesItReturnList body || doesItReturnList orelse
  | .funcDefStmt _ _ body => doesItReturnList body

def doesItReturnList : List Stmt → Bool
  | [] => false
  | s :: rest => doesItReturn s || doesItReturnList rest

end

/-- Result of astroid's `next(node.infer())` as the checkers consume it:
the query may fail (`InferenceError` / `StopIteration`), may produce an
object without a usable `value` attribute, or may produce a constant. -/
inductive InferResult where
  | failed
  | nonConst
  | value (c : Const)
  deriving Repr

/-- `AvoidInfiniteLoops.visit_while`: infer the loop test; when the inferred
object has a truthy constant value and neither `does_it_return` nor
`does_it_break` succeeds on the whole `While` node, emit the single
`no-infinite-loops` diagnostic.  Inference failure or a falsy/absent value
emits nothing. -/
def visitWhile (infer : Expr → InferResult) (test : Expr)
    (body orelse : List Stmt) : List Diag :=
  match infer test with
  | .failed => []
  | .nonConst => []
  | .value c =>
      if c.truthy then
        if doesItReturn (.whileStmt test body orelse) || doesItBreak (.whileStmt test body orelse) then
          []
        else
          [⟨"no-infinite-loops", []⟩]
      else []

/-- Per-node emission of the `AvoidInfiniteLoops` checker: it registers only a
`visit_while` callback, so every other statement kind — in particular every
`for` loop — produces no diagnostic. -/
def infiniteLoopVisit (infer : Expr → InferResult) : Stmt → List Diag
  | .whileStmt test body orelse => visitWhile infer test body orelse
  | _ => []

/-! ## Global-variable checker (`plugins/avoid_global_variables.py`) -/

/-- One ancestor on a node's `parent` chain, innermost first; the chain of a
well-formed astroid node ends at the `Module` root.  `If` and `While`
ancestors carry their test expression, which the dynamic-condition walk
inspects. -/
inductive Anc where
  | moduleAnc
  | classDefAnc
  | funcDefAnc
  | ifAnc (test : Expr)
  | whileAnc (test : Expr)
  | forAnc
  | tryAnc
  | otherAnc
  deriving Repr

/-- `AvoidGlobalVars._is_module_level` (also duplicated verbatim in
`AvoidGlobalPlaybookAPIs`): walk the parent chain; `Module` means module
level, a `ClassDef` or `FunctionDef` boundary means nested, anything else
recurses upward.  An astroid parent chain always ends at `Module`, so the
empty-chain case is unreachable; it is mapped to `false`. -/
def isModuleLevel : List Anc → Bool
  | [] => false
  | .moduleAnc :: _ => true
  | .classDefAnc :: _ => false
  | .funcDefAnc :: _ => false
  | _ :: rest => isModuleLevel rest

/-- `AvoidGlobalVars._is_within_non_static_condition_if_while`: walk the whole
parent chain to the root and report whether any `If` or `While` ancestor has a
test expression containing a call node.  (The source also examines the node
itself first; the nodes this is invoked on — assignment targets, attribute
and subscript nodes — are never `If`/`While`, so the ancestor chain
suffices.) -/
def isWithinNonStaticCondition (ancestors : List Anc) : Bool :=
  ancestors.any fun a =>
    match a with
    | .ifAnc test => test.containsCall
    | .whileAnc test => test.containsCall
    | _ => false

/-- `AvoidGlobalVars.MUTATE_METHODS`. -/
def MUTATE_METHODS : List String :=
  ["append", "extend", "insert", "remove", "pop", "clear", "sort", "reverse", "add",
   "discard", "update", "intersection_update", "difference_update",
   "symmetric_difference_update", "__setitem__", "setdefault", "popitem"]

/-- Whether a value node is one of `AvoidGlobalVars.MUTABLE_TYPES`
(`astroid.List`, `astroid.Dict`, `astroid.Set` — literal container nodes). -/
def isMutableLiteral : Expr → Bool
  | .listLit _ => true
  | .dictLit _ => true
  | .setLit _ => true
  | _ => false

/-- Mutable state of one `AvoidGlobalVars` instance. -/
structure GVState where
  mutableGlobals : List String
  currentGlobals : List String
  deriving DecidableEq, Repr

/-- `AvoidGlobalVars.__init__`: both sets start empty. -/
def gvInit : GVState := ⟨[], []⟩

/-- `AvoidGlobalVars._check_valid_update`: at module level, emit exactly when
the node sits under a dynamic (call-containing) `if`/`while` condition; in
nested scope, emit exactly when the name is in `current_globals` or
`mutable_globals`. -/
def checkValidUpdate (st : GVState) (ancestors : List Anc) (nodeName : String) : List Diag :=
  if isModuleLevel ancestors then
    if isWithinNonStaticCondition ancestors then [⟨"no-global-updates", [nodeName]⟩] else []
  else
    if st.currentGlobals.contains nodeName || st.mutableGlobals.contains nodeName then
      [⟨"no-global-updates", [nodeName]⟩]
    else []

/-- The visit events an `AvoidGlobalVars` instance receives, in pre-order.
Each event carries the ancestor chain of the node handed to the callback
(for `visit_call` the chain of the `node.func` attribute node, which the
source passes to `_check_valid_update`). -/
inductive GVEvent where
  | assignEvt (ancestors : List Anc) (targets : List Target) (value : Expr)
  | callEvt (ancestors : List Anc) (func : Expr)
  | augAssignEvt (ancestors : List Anc) (target : Target)
  | subscriptEvt (ancestors : List Anc) (value : Expr) (ctx : String)
  | globalEvt (names : List String)
  | funcDefEvt
  deriving Repr

/-- One iteration of the target loop in `AvoidGlobalVars.visit_assign` at
module level: an `AssignName` target under a dynamic condition emits a
diagnostic; otherwise a literal list/dict/set value adds the target name to
`mutable_globals`; other target kinds do nothing. -/
def gvAssignModuleStep (ancestors : List Anc) (value : Expr)
    (acc : GVState × List Diag) : Target → GVState × List Diag
  | .assignName n =>
      if isWithinNonStaticCondition ancestors then
        (acc.1, acc.2 ++ [⟨"no-global-updates", [n]⟩])
      else if isMutableLiteral value then
        ({ acc.1 with mutableGlobals := acc.1.mutableGlobals ++ [n] }, acc.2)
      else acc
  | _ => acc

/-- One iteration of the target loop in `AvoidGlobalVars.visit_assign` in
nested scope: an `AssignName` target already recorded in `mutable_globals` or
`current_globals` emits a diagnostic. -/
def gvAssignNestedCheck (st : GVState) : Target → List Diag
  | .assignName n =>
      if st.mutableGlobals.contains n || st.currentGlobals.contains n then
        [⟨"no-global-updates", [n]⟩]
      else []
  | _ => []

/-- One visitor dispatch of `AvoidGlobalVars`.

* `visit_assign`: the per-target module-level and nested-scope loops above.
* `visit_call`: a call whose callee is `name.method` with `method` in
  `MUTATE_METHODS` runs `_check_valid_update` on the receiver name.
* `visit_augassign`: an `AssignName` target runs `_check_valid_update`.
* `visit_subscript`: a subscript on a plain name whose stringified context is
  `Context.Store` runs `_check_valid_update`.
* `visit_global` extends `current_globals`; `visit_functiondef` resets it. -/
def gvStep (st : GVState) : GVEvent → GVState × List Diag
  | .assignEvt ancestors targets value =>
      if isModuleLevel ancestors then
        targets.foldl (gvAssignModuleStep ancestors value) (st, [])
      else
        (st, targets.foldl (fun acc t => acc ++ gvAssignNestedCheck st t) [])
  | .callEvt ancestors func =>
      (st,
       match func with
       | .attribute (.name receiver) attrname =>
           if MUTATE_METHODS.contains attrname then checkValidUpdate st ancestors receiver
           else []
       | _ => [])
  | .augAssignEvt ancestors target =>
      (st,
       match target with
       | .assignName n => checkValidUpdate st ancestors n
       | _ => [])
  | .subscriptEvt ancestors value ctx =>
      (st,
       match value with
       | .name n => if ctx = "Context.Store" then checkValidUpdate st ancestors n else []
       | _ => [])
  | .globalEvt names => ({ st with currentGlobals := st.currentGlobals ++ names }, [])
  | .funcDefEvt => ({ st with currentGlobals := [] }, [])

/-- One analysis pass of `AvoidGlobalVars` over a visit-event sequence. -/
def gvRun (st : GVState) : List GVEvent → GVState × List Diag
  | [] => (st, [])
  | e :: es =>
      let step := gvStep st e
      let rest := gvRun step.1 es
      (rest.1, step.2 ++ rest.2)

/-! ## Module-scope playbook-API checker (`plugins/avoid_global_playbook_apis.py`) -/

/-- `AvoidGlobalPlaybookAPIs.ALLOWLIST_APIS`. -/
def ALLOWLIST_APIS : List String :=
  ["address_in_network", "build_phantom_rest_url", "concatenate", "get_base_url",
   "get_default_rest_headers", "get_phantom_home", "get_rest_base_url", "parse_errors",
   "parse_results", "parse_success", "print_errors", "render_template", "valid_ip",
   "valid_net"]

/-- Mutable state of one `AvoidGlobalPlaybookAPIs` instance. -/
structure GPState where
  playbookApiAliases : List String
  playbookForbiddenModules : List String
  phEngineApiAliases : List String
  phEngineForbiddenModules : List String
  deriving DecidableEq, Repr

/-- `AvoidGlobalPlaybookAPIs.__init__`: no aliases yet; the forbidden-module
sets start with the two canonical restricted submodule paths. -/
def gpInit : GPState :=
  ⟨[], ["phantom.rules"], [], ["phantom.ph_engine"]⟩

/-- `AvoidGlobalPlaybookAPIs.visit_import`: `import phantom as alias`
synthesizes `alias.rules` and `alias.ph_engine` as forbidden module texts;
`import phantom.rules as alias` / `import phantom.ph_engine as alias` record
the alias (only when an alias is present). -/
def gpVisitImport (st : GPState) (names : List (String × Option String)) : GPState :=
  names.foldl
    (fun acc p =>
      let acc :=
        match p with
        | ("phantom", some al) =>
            { acc with
              phEngineForbiddenModules := acc.phEngineForbiddenModules ++ [al ++ ".ph_engine"],
              playbookForbiddenModules := acc.playbookForbiddenModules ++ [al ++ ".rules"] }
        | _ => acc
      let acc :=
        match p with
        | ("phantom.rules", some al) =>
            { acc with playbookApiAliases := acc.playbookApiAliases ++ [al] }
        | _ => acc
      match p with
      | ("phantom.ph_engine", some al) =>
          { acc with phEngineApiAliases := acc.phEngineApiAliases ++ [al] }
      | _ => acc)
    st

/-- `AvoidGlobalPlaybookAPIs.visit_importfrom`: only `from phantom import …`
is inspected; importing `rules` or `ph_engine` records the alias, or the
submodule name itself when no alias is given. -/
def gpVisitImportFrom (st : GPState) (modname : String)
    (names : List (String × Option String)) : GPState :=
  if modname ≠ "phantom" then st
  else
    names.foldl
      (fun acc p =>
        let acc :=
          if p.1 = "rules" then
            { acc with playbookApiAliases := acc.playbookApiAliases ++ [p.2.getD p.1] }
          else acc
        if p.1 = "ph_engine" then
          { acc with phEngineApiAliases := acc.phEngineApiAliases ++ [p.2.getD p.1] }
        else acc)
      st

/-- `AvoidGlobalPlaybookAPIs.visit_call`: nothing outside module level.  A
callee that is not an attribute access raises `AttributeError` at
`func.attrname`, which the source catches and ignores.  For an attribute
callee with a non-empty attribute name, the printed receiver is tested
against the ph_engine sets (emitting unconditionally on a match) and against
the playbook-rules sets (emitting only when the member name is not on the
allow-list); both diagnostics carry the printed callee text. -/
def gpVisitCall (st : GPState) (ancestors : List Anc) (func : Expr) : List Diag :=
  if !isModuleLevel ancestors then []
  else
    match func with
    | .attribute recv attrname =>
        if attrname = "" then []
        else
          let module := recv.asString
          (if st.phEngineForbiddenModules.contains module
              || st.phEngineApiAliases.contains module then
             [⟨"no-global-playbook-apis", [(Expr.attribute recv attrname).asString]⟩]
           else []) ++
          (if (st.playbookForbiddenModules.contains module
              || st.playbookApiAliases.contains module)
              && !(ALLOWLIST_APIS.contains attrname) then
             [⟨"no-global-playbook-apis", [(Expr.attribute recv attrname).asString]⟩]
           else [])
    | _ => []

/-! ## Version-gated checkers (`avoid_313_removals_on_39.py`,
`avoid_chained_classmethod_on_313.py`, `avoid_313_random_deprecations_on_all.py`) -/

/-- The first two components of `sys.version_info`. -/
abbrev Version := Nat × Nat

/-- Gate of `Avoid313RemovalsOn39`: `sys.version_info[:2] == (3, 9)`,
computed once at construction. -/
def removalsEnabled (v : Version) : Bool := decide (v = (3, 9))

/-- Gate of `AvoidChainedClassmethodOn313`:
`sys.version_info[:2] >= (3, 13)` under Python's lexicographic tuple order,
computed once at construction. -/
def chainedEnabled (v : Version) : Bool :=
  decide (3 < v.1) || (decide (v.1 = 3) && decide (13 ≤ v.2))

/-- `REMOVED_MODULES` table. -/
def REMOVED_MODULES : List String :=
  ["distutils", "formatter", "parser", "binhex", "imp", "asynchat", "asyncore", "mailcap"]

/-- `REMOVED_CLASSES` table. -/
def REMOVED_CLASSES : List (String × List String) :=
  [("pkgutil", ["ImpLoader", "ImpImporter"]),
   ("importlib.abc", ["Finder"]),
   ("asyncio.coroutines", ["CoroWrapper"]),
   ("configparser", ["SafeConfigParser", "LegacyInterpolation"])]

/-- `REMOVED_METHODS` table. -/
def REMOVED_METHODS : List (String × List String) :=
  [("importlib.util", ["set_package", "module_for_loader", "set_loader"]),
   ("re", ["template"]),
   ("configparser.RawConfigParser", ["readfp"]),
   ("pathlib.PurePath", ["__class_getitem__"]),
   ("pathlib.Path", ["link_to"]),
   ("ssl", ["RAND_pseudo_bytes", "RAND_egd", "wrap_socket", "match_hostname"])]

/-- `REMOVED_ATTRIBUTES` table. -/
def REMOVED_ATTRIBUTES : List (String × List String) :=
  [("re", ["TEMPLATE", "T"]), ("typing", ["io", "re"]),
   ("configparser.ParsingError", ["filename"])]

/-- `REMOVED_DECORATORS` table. -/
def REMOVED_DECORATORS : List (String × List String) :=
  [("asyncio", ["coroutine"])]

/-- Shared body of `_check_method` / `_check_attribute` / `_check_class` /
`_check_decorator` in `Avoid313RemovalsOn39`: resolve the node, split off the
final dotted component, and emit one diagnostic per table entry whose module
is a prefix of the resolved path and whose member set contains that final
component. -/
def checkAgainstTable (tbl : List (String × List String)) (code : String)
    (moduleName : String) : List Diag :=
  let lastName := pyLastDotComponent moduleName
  tbl.foldl
    (fun acc p =>
      if pyStartsWith moduleName p.1 && p.2.contains lastName then
        acc ++ [⟨code, [lastName, p.1]⟩]
      else acc)
    []

/-- `Avoid313RemovalsOn39.visit_import`: gated; updates the inherited alias
table, then flags each imported name in `REMOVED_MODULES`. -/
def rmVisitImport (v : Version) (m : AliasMap)
    (names : List (String × Option String)) : AliasMap × List Diag :=
  if !removalsEnabled v then (m, [])
  else
    (visitImportBase m names,
     names.foldl
       (fun acc p =>
         if REMOVED_MODULES.contains p.1 then acc ++ [⟨"no-313-removed-module", [p.1]⟩]
         else acc)
       [])

/-- `Avoid313RemovalsOn39.visit_importfrom`: gated; updates the alias table,
flags a removed source module, then per imported name flags removed modules,
attributes, methods and classes. -/
def rmVisitImportFrom (v : Version) (m : AliasMap) (modname : String)
    (names : List (String × Option String)) : AliasMap × List Diag :=
  if !removalsEnabled v then (m, [])
  else
    (visitImportFromBase m modname names,
     (if REMOVED_MODULES.contains modname then [⟨"no-313-removed-module", [modname]⟩] else []) ++
     names.foldl
       (fun acc p =>
         let fullName := modname ++ "." ++ p.1
         acc ++
         (if REMOVED_MODULES.contains fullName then [⟨"no-313-removed-module", [fullName]⟩] else []) ++
         (if (REMOVED_ATTRIBUTES.lookup modname).getD [] |>.contains p.1 then
            [⟨"no-313-removed-attribute", [p.1, modname]⟩] else []) ++
         (if (REMOVED_METHODS.lookup modname).getD [] |>.contains p.1 then
            [⟨"no-313-removed-method", [p.1, modname]⟩] else []) ++
         (if (REMOVED_CLASSES.lookup modname).getD [] |>.contains p.1 then
            [⟨"no-313-removed-class", [p.1, modname]⟩] else []))
       [])

/-- `Avoid313RemovalsOn39.visit_call`: gated; `_check_method` then
`_check_class` on the call node's resolved path. -/
def rmVisitCall (v : Version) (m : AliasMap) (func : Expr) (args : List Expr)
    (kws : List (Option String × Expr)) : List Diag :=
  if !removalsEnabled v then []
  else
    let moduleName := resolveFullName m (.call func args kws)
    checkAgainstTable REMOVED_METHODS "no-313-removed-method" moduleName ++
    checkAgainstTable REMOVED_CLASSES "no-313-removed-class" moduleName

/-- `Avoid313RemovalsOn39.visit_attribute`: gated; `_check_attribute`. -/
def rmVisitAttribute (v : Version) (m : AliasMap) (node : Expr) : List Diag :=
  if !removalsEnabled v then []
  else checkAgainstTable REMOVED_ATTRIBUTES "no-313-removed-attribute" (resolveFullName m node)

/-- `Avoid313RemovalsOn39.visit_classdef`: gated; `_check_class` on every
base-class expression. -/
def rmVisitClassdef (v : Version) (m : AliasMap) (bases : List Expr) : List Diag :=
  if !removalsEnabled v then []
  else
    bases.foldl
      (fun acc b =>
        acc ++ checkAgainstTable REMOVED_CLASSES "no-313-removed-class" (resolveFullName m b))
      []

/-- `Avoid313RemovalsOn39.visit_functiondef`: gated; `_check_decorator` on
every decorator expression. -/
def rmVisitFunctiondef (v : Version) (m : AliasMap) (decorators : List Expr) : List Diag :=
  if !removalsEnabled v then []
  else
    decorators.foldl
      (fun acc d =>
        acc ++ checkAgainstTable REMOVED_DECORATORS "no-313-removed-decorator" (resolveFullName m d))
      []

/-- `DESCRIPTOR_NAMES` of the chained-classmethod checker. -/
def DESCRIPTOR_NAMES : List String :=
  ["property", "staticmethod", "cached_property", "abstractmethod"]

/-- `AvoidChainedClassmethodOn313._check_decorator`: a class-body member that
is a function definition with more than one decorator, one of which prints
exactly `classmethod`, yields one diagnostic per decorator whose printed form
is in `DESCRIPTOR_NAMES`. -/
def checkDecoratorChained : Stmt → List Diag
  | .funcDefStmt _ decorators _ =>
      if decorators.length > 1 && decorators.any (fun d => d.asString == "classmethod") then
        decorators.foldl
          (fun acc d =>
            if DESCRIPTOR_NAMES.contains d.asString then
              acc ++ [⟨"no-chained-classmethod", [d.asString]⟩]
            else acc)
          []
      else []
  | _ => []

/-- `AvoidChainedClassmethodOn313.visit_classdef`: gated on the new runtime
version; checks every member of the class body. -/
def chainedVisitClassdef (v : Version) (body : List Stmt) : List Diag :=
  if chainedEnabled v then body.foldl (fun acc s => acc ++ checkDecoratorChained s) []
  else []

/-- `Avoid313RandomDeprecationsOnAll._check_random_shuffle`: flag a second
positional argument, and flag a keyword argument literally named `random`. -/
def checkRandomShuffle (args : List Expr) (kws : List (Option String × Expr)) : List Diag :=
  (if args.length > 1 then [⟨"no-random-shuffle-random-param", []⟩] else []) ++
  (if kws.any (fun k => k.1 == some "random") then [⟨"no-random-shuffle-random-param", []⟩] else [])

/-- `Avoid313RandomDeprecationsOnAll.visit_call`, executed in a process whose
`sys.version_info[:2]` is `v`.  The method consults no version gate — neither
`sys.version_info` nor the `enabled` flag appears in its body — so the
parameter `v` is unused: the checker fires identically under every runtime
version. -/
def randomVisitCallUnder (_v : Version) (m : AliasMap) (func : Expr)
    (args : List Expr) (kws : List (Option String × Expr)) : List Diag :=
  let moduleName := resolveFullName m (.call func args kws)
  if pyStartsWith moduleName "random." then
    let methodName := pyLastDotComponent moduleName
    if methodName = "sample" then [⟨"consider-random-sample-sequence", []⟩]
    else if methodName = "randrange" then [⟨"consider-random-randrange-integer-args", []⟩]
    else if methodName = "shuffle" then checkRandomShuffle args kws
    else []
  else []

/-! ## HTML-parser-backend checker (`plugins/avoid_lxml_library.py`) -/

/-- Mutable state of one `AvoidLxml` instance. -/
structure LxmlState where
  bs4Aliases : List String
  soupAliases : List String
  deriving DecidableEq, Repr

/-- `AvoidLxml.__init__`: both alias sets start empty. -/
def lxmlInit : LxmlState := ⟨[], []⟩

/-- The `lxml_lib` set of discouraged parser-backend names. -/
def LXML_LIB : List String := ["lxml", "lxml-xml", "xml"]

/-- `AvoidLxml.visit_import`: record every alias that `import bs4` (possibly
`as …`) binds. -/
def lxmlVisitImport (st : LxmlState) (names : List (String × Option String)) : LxmlState :=
  names.foldl
    (fun acc p =>
      if p.1 = "bs4" then { acc with bs4Aliases := acc.bs4Aliases ++ [p.2.getD p.1] }
      else acc)
    st

/-- `AvoidLxml.visit_importfrom`: record every alias that
`from bs4 import BeautifulSoup` (possibly `as …`) binds. -/
def lxmlVisitImportFrom (st : LxmlState) (modname : String)
    (names : List (String × Option String)) : LxmlState :=
  if modname = "bs4" then
    names.foldl
      (fun acc p =>
        if p.1 = "BeautifulSoup" then
          { acc with soupAliases := acc.soupAliases ++ [p.2.getD p.1] }
        else acc)
      st
  else st

/-- `AvoidLxml.is_beautiful_soup_call`: the callee is either
`alias.BeautifulSoup` with `alias` a recorded bs4 alias, or a bare name in the
recorded soup aliases. -/
def isBeautifulSoupCall (st : LxmlState) : Expr → Bool
  | .attribute (.name receiver) attrname =>
      attrname == "BeautifulSoup" && st.bs4Aliases.contains receiver
  | .name n => st.soupAliases.contains n
  | _ => false

/-- Python membership test `node.value in self.lxml_lib`: true exactly for a
string constant equal to one of the discouraged backend names. -/
def Const.inLxmlLib : Const → Bool
  | .str s => LXML_LIB.contains s
  | _ => false

/-- `AvoidLxml.check_literal_value`: a literal in the discouraged set emits;
otherwise the value is inferred, and an inferred non-`None` constant in the
set emits; inference failure emits nothing. -/
def checkLiteralValue (infer : Expr → InferResult) (node : Expr) : List Diag :=
  match node with
  | .const c => if c.inLxmlLib then [⟨"no-lxml", []⟩] else []
  | _ =>
      match infer node with
      | .failed => []
      | .nonConst => []
      | .value c => if c ≠ .noneC && c.inLxmlLib then [⟨"no-lxml", []⟩] else []

/-- The keyword scan of `AvoidLxml.visit_call`: walk the keyword list looking
for the `features` parameter.  Reaching a keyword whose `arg` is `None` (a
`**kwargs` splat) evaluates `k.arg.lower()` on `None` and raises
`AttributeError`, which no handler in the method catches. -/
def lxmlFindFeatures : List (Option String × Expr) → Except String (Option Expr)
  | [] => .ok none
  | (none, _) :: _ => .error "AttributeError"
  | (some a, value) :: rest =>
      if pyLower a = "features" then .ok (some value) else lxmlFindFeatures rest

/-- `AvoidLxml.visit_call`: on a recognized BeautifulSoup construction, check
the `features` keyword if present, else the second positional argument, else
emit the default-backend diagnostic.  The result is `Except` because the
keyword scan can raise out of the visitor. -/
def lxmlVisitCall (st : LxmlState) (infer : Expr → InferResult) (func : Expr)
    (args : List Expr) (kws : List (Option String × Expr)) : Except String (List Diag) :=
  if !isBeautifulSoupCall st func then .ok []
  else
    match lxmlFindFeatures kws with
    | .error e => .error e
    | .ok (some value) => .ok (checkLiteralValue infer value)
    | .ok none =>
        if args.length ≥ 2 then .ok (checkLiteralValue infer (args.getD 1 (.const .noneC)))
        else .ok [⟨"no-lxml", []⟩]

/-! ## Auxiliary definitions used only to state claims -/

/-- Node kinds the resolver can give a non-empty answer for: the three
branches of `_resolve_full_name`; everything else falls through to `""`. -/
def Expr.isResolvableKind : Expr → Bool
  | .name _ => true
  | .attribute _ _ => true
  | .call _ _ _ => true
  | _ => false

/-- A constant-inference oracle that infers a literal constant test to its
constant and fails elsewhere — the behaviour of astroid's `infer()` on a
literal `While` test such as `True`, used to instantiate concrete examples. -/
def constInfer : Expr → InferResult
  | .const c => .value c
  | _ => .failed

mutual

/-- A full recursive search for a `break` node, descending into nested loops
as well — the reading in which a `break` anywhere in the searched statements
counts.  Used only to state claims about the break search. -/
def hasBreakAnywhere : Stmt → Bool
  | .breakStmt => true
  | .returnStmt _ => false
  | .passStmt => false
  | .exprStmt _ => false
  | .assignStmt _ _ => false
  | .whileStmt _ body orelse => hasBreakAnywhereList body || hasBreakAnywhereList orelse
  | .forStmt _ _ body orelse => hasBreakAnywhereList body || hasBreakAnywhereList orelse
  | .ifStmt _ body orelse => hasBreakAnywhereList body || hasBreakAnywhereList orelse
  | .funcDefStmt _ _ body => hasBreakAnywhereList body

def hasBreakAnywhereList : List Stmt → Bool
  | [] => false
  | s :: rest => hasBreakAnywhere s || hasBreakAnywhereList rest

end

/-! ## Helper lemmas -/

/-- Looking up a key just inserted yields the inserted value. -/
theorem aliasFind_insert_self (m : AliasMap) (k v : String) :
    aliasFind (aliasInsert m k v) k = some v := by
  simp [aliasFind, aliasInsert, List.find?]

/-- The two lookup styles agree: `dict.get(k, d)` is `dict.get(k)` with
default `d`. -/
theorem aliasGet_eq_find (m : AliasMap) (k d : String) :
    aliasGet m k d = (aliasFind m k).getD d := by
  simp only [aliasGet, aliasFind]
  cases List.find? (fun p => p.1 == k) m <;> rfl

/-- Membership characterization of the flattened banned set. -/
theorem mem_flattenBanned (tbl : List (String × List String)) (x : String) :
    x ∈ flattenBanned tbl ↔
      ∃ p ∈ tbl, (∃ mem ∈ p.2, x = p.1 ++ "." ++ mem) ∨ (p.2 = [] ∧ x = p.1) := by
  induction tbl with
  | nil => simp [flattenBanned]
  | cons hd rest ih =>
    obtain ⟨k, v⟩ := hd
    cases v with
    | nil =>
        simp [flattenBanned, ih]
    | cons a as =>
        simp only [flattenBanned, List.isEmpty_cons, if_neg (by simp : ¬(false = true)),
          List.append_nil, List.mem_append, List.mem_map, ih, List.mem_cons]
        constructor
        · rintro (⟨mem, hmem, rfl⟩ | ⟨p, hp, hcase⟩)
          · exact ⟨(k, a :: as), Or.inl rfl, Or.inl ⟨mem, List.mem_cons.mpr hmem, rfl⟩⟩
          · exact ⟨p, Or.inr hp, hcase⟩
        · rintro ⟨p, (rfl | hp), hcase⟩
          · rcases hcase with ⟨mem, hmem, rfl⟩ | ⟨hnil, _⟩
            · exact Or.inl ⟨mem, List.mem_cons.mp hmem, rfl⟩
            · exact absurd hnil (by simp)
          · exact Or.inr ⟨p, hp, hcase⟩

/-- A banned-functions pass over a concatenation of event lists concatenates
the per-segment diagnostics, threading the alias table through. -/
theorem bfRun_append (banned : List String) (message : String) (m : AliasMap)
    (es1 es2 : List BFEvent) :
    bfRun banned message m (es1 ++ es2) =
      ((bfRun banned message (bfRun banned message m es1).1 es2).1,
       (bfRun banned message m es1).2 ++
         (bfRun banned message (bfRun banned message m es1).1 es2).2) := by
  induction es1 generalizing m with
  | nil => simp [bfRun]
  | cons e es ih => simp [bfRun, ih]

/-- A banned-functions checker leaves its alias table untouched across call
events. -/
theorem bfRun_state_of_calls (banned : List String) (message : String)
    (m : AliasMap) (es : List BFEvent) (h : ∀ e ∈ es, e.isCallEvt = true) :
    (bfRun banned message m es).1 = m := by
  induction es generalizing m with
  | nil => rfl
  | cons e es ih =>
    have he : e.isCallEvt = true := h e (List.mem_cons_self e es)
    have hrest : ∀ e ∈ es, e.isCallEvt = true := fun x hx => h x (List.mem_cons_of_mem e hx)
    cases e with
    | callEvt f args kws => simp [bfRun, bfStep, ih _ hrest]
    | importEvt names => simp [BFEvent.isCallEvt] at he
    | importFromEvt modname names => simp [BFEvent.isCallEvt] at he
    | assignEvt targets value => simp [BFEvent.isCallEvt] at he

/-! ## Claim theorems -/

/-- C1: `_resolve_full_name` returns, for a name node, the alias table's
binding with the literal text as fallback; for an attribute node, the base
resolution followed by a dot and the attribute name (just the attribute name
on an empty base); for a call node, the resolution of the callee ignoring
arguments (so a bound `Foo` makes `Foo().bar()` resolve to `pkg.Foo.bar`);
and the empty path for every other node kind.  The embedded function is total,
matching the source method, which returns on every branch and cannot raise. -/
theorem resolve_full_name_correct (m : AliasMap) :
    (∀ id, resolveFullName m (.name id) = (aliasFind m id).getD id) ∧
    (∀ e a, resolveFullName m (.attribute e a) =
       if resolveFullName m e = "" then a else resolveFullName m e ++ "." ++ a) ∧
    (∀ f args kws, resolveFullName m (.call f args kws) = resolveFullName m f) ∧
    (∀ e : Expr, e.isResolvableKind = false → resolveFullName m e = "") ∧
    resolveFullName [("Foo", "pkg.Foo")]
      (.attribute (.call (.name "Foo") [] []) "bar") = "pkg.Foo.bar" := by
  refine ⟨fun id => ?_, fun e a => rfl, fun f args kws => rfl, fun e he => ?_, by decide⟩
  · rw [resolveFullName, aliasGet_eq_find]
  · cases e <;> simp_all [Expr.isResolvableKind, resolveFullName]

/-- Witness for C1 at a concrete unresolvable node kind. -/
theorem resolve_full_name_correct_witness :
    resolveFullName [] (.listLit []) = "" :=
  (resolve_full_name_correct []).2.2.2.1 (.listLit []) rfl

/-- C7 counterexample: recording the module-level assignment `x.y = 1`
(an `AssignAttr` target whose right-hand side resolves to the empty path)
binds the key `x.y` to the empty path, not to the target's own name. -/
theorem record_assignment_counterexample :
    aliasFind (recordTarget [] (.assignAttr (.name "x") "y") (.const (.int 1))) "x.y"
      = some "" ∧ ("" : String) ≠ "x.y" := by
  exact ⟨by decide, by decide⟩

/-- C7 amended: for a name target the table afterwards maps the target to the
resolved right-hand side when non-empty and otherwise to the target's own
name, which for a non-empty target name is never the empty path; an attribute
target, however, is bound to the resolved right-hand side unconditionally,
empty or not.  Multi-target assignments process the targets left to right,
re-resolving the right-hand side against the updated table each time. -/
theorem record_assignment_amended (m : AliasMap) (value : Expr) :
    (∀ n, aliasFind (recordTarget m (.assignName n) value) n =
       some (if resolveFullName m value = "" then n else resolveFullName m value)) ∧
    (∀ n, n ≠ "" → aliasFind (recordTarget m (.assignName n) value) n ≠ some "") ∧
    (∀ e a, aliasFind (recordTarget m (.assignAttr e a) value) (Target.attrString e a) =
       some (resolveFullName m value)) ∧
    (∀ ts, visitAssignBase m ts value = ts.foldl (fun acc t => recordTarget acc t value) m) := by
  refine ⟨fun n => ?_, fun n hn => ?_, fun e a => ?_, fun ts => rfl⟩
  · rw [recordTarget]
    exact aliasFind_insert_self ..
  · rw [recordTarget]
    rw [aliasFind_insert_self]
    intro hcontra
    rw [Option.some_inj] at hcontra
    by_cases hv : resolveFullName m value = ""
    · rw [if_pos hv] at hcontra
      exact hn hcontra
    · rw [if_neg hv] at hcontra
      exact hv hcontra
  · rw [recordTarget]
    exact aliasFind_insert_self ..

/-- Witness for C7 applying the amended statement at `CACHE = d["k"]`, whose
right-hand side is unresolvable. -/
theorem record_assignment_amended_witness :
    aliasFind (recordTarget [] (.assignName "CACHE")
      (.subscript (.name "d") (.const (.str "k")))) "CACHE" ≠ some "" :=
  (record_assignment_amended [] (.subscript (.name "d") (.const (.str "k")))).2.1
    "CACHE" (by decide)

/-- C8: the HTML-parser-backend checker's call visitor is not total — on the
file `from bs4 import BeautifulSoup` followed by `BeautifulSoup(doc, **opts)`,
the keyword scan evaluates `k.arg.lower()` on a keyword whose `arg` is `None`
and raises `AttributeError` out of `visit_call`, which nothing in the method
catches.  The claim (and the stated error-handling design, which the sibling
checker `AvoidGlobalPlaybookAPIs.visit_call` implements by catching
`AttributeError`) says such a node must be treated as a non-match. -/
theorem lxml_visit_call_raises :
    lxmlVisitCall (lxmlVisitImportFrom lxmlInit "bs4" [("BeautifulSoup", none)])
      constInfer (.name "BeautifulSoup") [.name "doc"] [(none, .name "opts")]
      = .error "AttributeError" := rfl

/-- C2: the flattened banned set holds exactly the `module.member` paths plus
the bare modules with empty member sets; each visited call node yields exactly
one diagnostic with the checker's single fixed code precisely when its
resolved path is in that set; and a pass over concatenated event segments
concatenates their diagnostics, so matches are never deduplicated across
distinct call nodes. -/
theorem banned_functions_correct (tbl : List (String × List String)) (message : String) :
    (∀ x, x ∈ flattenBanned tbl ↔
       ∃ p ∈ tbl, (∃ mem ∈ p.2, x = p.1 ++ "." ++ mem) ∨ (p.2 = [] ∧ x = p.1)) ∧
    (∀ m f args kws, bfStep (flattenBanned tbl) message m (.callEvt f args kws) =
       (m, if resolveFullName m (.call f args kws) ∈ flattenBanned tbl
           then [⟨message, []⟩] else [])) ∧
    (∀ m es1 es2, (bfRun (flattenBanned tbl) message m (es1 ++ es2)).2 =
       (bfRun (flattenBanned tbl) message m es1).2 ++
         (bfRun (flattenBanned tbl) message
           (bfRun (flattenBanned tbl) message m es1).1 es2).2) :=
  ⟨mem_flattenBanned tbl,
   fun _ _ _ _ => rfl,
   fun m es1 es2 => by rw [bfRun_append]⟩

/-- C3 counterexample: a `while` whose test infers to the definite truthy
constant `True`, whose body is a lone `pass` (so the body contains no return
node anywhere and no break node at all), yet the checker emits nothing,
because the full return search also covers the statement's `else` clause,
where a `return` sits. -/
theorem infinite_loop_counterexample :
    constInfer (.const (.bool true)) = .value (.bool true) ∧
    (Const.bool true).truthy = true ∧
    doesItReturnList [.passStmt] = false ∧
    hasBreakAnywhereList [.passStmt] = false ∧
    visitWhile constInfer (.const (.bool true)) [.passStmt] [.returnStmt none] = [] := by
  exact ⟨rfl, rfl, rfl, rfl, rfl⟩

/-- C3 amended: for a while statement whose test infers to a definite truthy
constant, exactly one diagnostic is emitted when the whole statement — body
and `else` clause alike — contains no return node anywhere and the break
search (which skips nested while/for statements entirely, so a break inside a
nested loop statement never counts) finds nothing; any found return or break
suppresses it; failed, indeterminate, or non-truthy inference emits nothing;
and `for` loops never produce this diagnostic, the checker having no handler
for them. -/
theorem infinite_loop_checker_amended :
    (∀ (infer : Expr → InferResult) test body orelse c,
       infer test = .value c → c.truthy = true →
       doesItReturn (.whileStmt test body orelse) = false →
       doesItBreak (.whileStmt test body orelse) = false →
       visitWhile infer test body orelse = [⟨"no-infinite-loops", []⟩]) ∧
    (∀ (infer : Expr → InferResult) test body orelse c,
       infer test = .value c → c.truthy = true →
       (doesItReturn (.whileStmt test body orelse) = true ∨
        doesItBreak (.whileStmt test body orelse) = true) →
       visitWhile infer test body orelse = []) ∧
    (∀ (infer : Expr → InferResult) test body orelse,
       (infer test = .failed ∨ infer test = .nonConst ∨
        (∃ c, infer test = .value c ∧ c.truthy = false)) →
       visitWhile infer test body orelse = []) ∧
    (∀ tgt iter fbody forelse rest,
       doesItBreakList (.forStmt tgt iter fbody forelse :: rest) = doesItBreakList rest) ∧
    (∀ wtest wbody worelse rest,
       doesItBreakList (.whileStmt wtest wbody worelse :: rest) = doesItBreakList rest) ∧
    (∀ (infer : Expr → InferResult) tgt iter body orelse,
       infiniteLoopVisit infer (.forStmt tgt iter body orelse) = []) := by
  refine ⟨?_, ?_, ?_, fun _ _ _ _ _ => rfl, fun _ _ _ _ => rfl, fun _ _ _ _ _ => rfl⟩
  · intro infer test body orelse c hinf htr hret hbrk
    simp [visitWhile, hinf, htr, hret, hbrk]
  · intro infer test body orelse c hinf htr hor
    rcases hor with h | h <;> simp [visitWhile, hinf, htr, h]
  · intro infer test body orelse hcase
    rcases hcase with h | h | ⟨c, h, htr⟩
    · simp [visitWhile, h]
    · simp [visitWhile, h]
    · simp [visitWhile, h, htr]

/-- Witness for C3's amended statement at `while True: pass` with no `else`
clause: exactly one diagnostic. -/
theorem infinite_loop_checker_amended_witness :
    visitWhile constInfer (.const (.bool true)) [.passStmt] [] =
      [⟨"no-infinite-loops", []⟩] :=
  infinite_loop_checker_amended.1 constInfer (.const (.bool true)) [.passStmt] []
    (.bool true) rfl rfl rfl rfl

/-- C5 counterexample: under runtime version `(3, 9)` — which the claim calls
non-matching for the randomness-API detector — the detector's call visitor
still emits its diagnostic on `random.sample(...)`, because the visitor
consults no version gate at all. -/
theorem version_gating_counterexample :
    chainedEnabled (3, 9) = false ∧
    randomVisitCallUnder (3, 9) [] (.attribute (.name "random") "sample") [] [] =
      [⟨"consider-random-sample-sequence", []⟩] := by
  exact ⟨by decide, by decide⟩

/-- C5 amended: the removed-symbol detector's six visitors all emit nothing
(and leave the alias table untouched) whenever the once-computed gate
`sys.version_info[:2] == (3, 9)` is false; the chained-descriptor detector
emits nothing whenever its once-computed gate `>= (3, 13)` is false, that
gate holding exactly on 3.13 or later; but the randomness-API detector is not
version-gated: its call visitor behaves identically under every runtime
version. -/
theorem version_gating_amended :
    (∀ v : Version, v ≠ (3, 9) → removalsEnabled v = false) ∧
    (∀ (v : Version) m names, removalsEnabled v = false →
       rmVisitImport v m names = (m, [])) ∧
    (∀ (v : Version) m modname names, removalsEnabled v = false →
       rmVisitImportFrom v m modname names = (m, [])) ∧
    (∀ (v : Version) m f args kws, removalsEnabled v = false →
       rmVisitCall v m f args kws = []) ∧
    (∀ (v : Version) m node, removalsEnabled v = false →
       rmVisitAttribute v m node = []) ∧
    (∀ (v : Version) m bases, removalsEnabled v = false →
       rmVisitClassdef v m bases = []) ∧
    (∀ (v : Version) m decs, removalsEnabled v = false →
       rmVisitFunctiondef v m decs = []) ∧
    (∀ v : Version, chainedEnabled v = true ↔ (3 < v.1 ∨ (v.1 = 3 ∧ 13 ≤ v.2))) ∧
    (∀ (v : Version) body, chainedEnabled v = false → chainedVisitClassdef v body = []) ∧
    (∀ (v w : Version) m f args kws,
       randomVisitCallUnder v m f args kws = randomVisitCallUnder w m f args kws) := by
  refine ⟨?_, ?_, ?_, ?_, ?_, ?_, ?_, ?_, ?_, fun _ _ _ _ _ _ => rfl⟩
  · intro v hv
    simpa [removalsEnabled] using hv
  · intro v m names h
    rw [rmVisitImport, h]
    rfl
  · intro v m modname names h
    rw [rmVisitImportFrom, h]
    rfl
  · intro v m f args kws h
    rw [rmVisitCall, h]
    rfl
  · intro v m node h
    rw [rmVisitAttribute, h]
    rfl
  · intro v m bases h
    rw [rmVisitClassdef, h]
    rfl
  · intro v m decs h
    rw [rmVisitFunctiondef, h]
    rfl
  · intro v
    simp [chainedEnabled]
  · intro v body h
    rw [chainedVisitClassdef, h]
    rfl

/-- Witness for C5's amended statement: under version `(3, 13)` the
removed-symbol detector's gate is off and its call visitor emits nothing,
even on a call that resolves to a removed method. -/
theorem version_gating_amended_witness :
    rmVisitCall (3, 13) [] (.attribute (.name "re") "template") [] [] = [] :=
  version_gating_amended.2.2.2.1 (3, 13) [] (.attribute (.name "re") "template") [] []
    (by decide)

/-- The names bound by the `AssignName` targets of an assignment, in order. -/
def targetNames : List Target → List String :=
  List.filterMap fun t =>
    match t with
    | .assignName n => some n
    | _ => none

/-- Under a dynamic condition, the module-level target loop emits one
diagnostic per `AssignName` target and leaves the state unchanged. -/
theorem gv_module_fold_dynamic (ancestors : List Anc) (value : Expr)
    (h : isWithinNonStaticCondition ancestors = true) (ts : List Target)
    (acc : GVState × List Diag) :
    ts.foldl (gvAssignModuleStep ancestors value) acc =
      (acc.1, acc.2 ++ (targetNames ts).map (fun n => ⟨"no-global-updates", [n]⟩)) := by
  induction ts generalizing acc with
  | nil => simp [targetNames]
  | cons t ts ih =>
    cases t with
    | assignName n => simp [gvAssignModuleStep, h, ih, targetNames]
    | assignAttr e a => simpa [gvAssignModuleStep, targetNames] using ih acc
    | otherTarget => simpa [gvAssignModuleStep, targetNames] using ih acc

/-- Outside a dynamic condition, the module-level target loop emits no
diagnostics. -/
theorem gv_module_fold_static_snd (ancestors : List Anc) (value : Expr)
    (h : isWithinNonStaticCondition ancestors = false) (ts : List Target)
    (acc : GVState × List Diag) :
    (ts.foldl (gvAssignModuleStep ancestors value) acc).2 = acc.2 := by
  induction ts generalizing acc with
  | nil => rfl
  | cons t ts ih =>
    cases t with
    | assignName n =>
        by_cases hm : isMutableLiteral value = true <;>
          simp [gvAssignModuleStep, h, hm, ih]
    | assignAttr e a => simpa [gvAssignModuleStep] using ih acc
    | otherTarget => simpa [gvAssignModuleStep] using ih acc

/-- Outside a dynamic condition, with a literal mutable value, the
module-level target loop appends every `AssignName` target to the
mutable-globals set. -/
theorem gv_module_fold_static_mut (ancestors : List Anc) (value : Expr)
    (h : isWithinNonStaticCondition ancestors = false)
    (hm : isMutableLiteral value = true) (ts : List Target)
    (acc : GVState × List Diag) :
    (ts.foldl (gvAssignModuleStep ancestors value) acc).1.mutableGlobals =
      acc.1.mutableGlobals ++ targetNames ts := by
  induction ts generalizing acc with
  | nil => simp [targetNames]
  | cons t ts ih =>
    cases t with
    | assignName n => simp [gvAssignModuleStep, h, hm, ih, targetNames]
    | assignAttr e a => simpa [gvAssignModuleStep, targetNames] using ih acc
    | otherTarget => simpa [gvAssignModuleStep, targetNames] using ih acc

/-- The module-level target loop never touches `current_globals`. -/
theorem gv_module_fold_currentGlobals (ancestors : List Anc) (value : Expr)
    (ts : List Target) (acc : GVState × List Diag) :
    (ts.foldl (gvAssignModuleStep ancestors value) acc).1.currentGlobals =
      acc.1.currentGlobals := by
  induction ts generalizing acc with
  | nil => rfl
  | cons t ts ih =>
    cases t with
    | assignName n =>
        by_cases h : isWithinNonStaticCondition ancestors = true
        · simp [gvAssignModuleStep, h, ih]
        · by_cases hm : isMutableLiteral value = true <;>
            simp [gvAssignModuleStep, h, hm, ih]
    | assignAttr e a => simpa [gvAssignModuleStep] using ih acc
    | otherTarget => simpa [gvAssignModuleStep] using ih acc

/-- The names accumulated in `current_globals` by the `global` statements
since the most recent function-definition event, folded left over the event
sequence from a given starting set. -/
def globalsSinceFrom (cur : List String) : List GVEvent → List String
  | [] => cur
  | .globalEvt ns :: es => globalsSinceFrom (cur ++ ns) es
  | .funcDefEvt :: es => globalsSinceFrom [] es
  | _ :: es => globalsSinceFrom cur es

/-- After any pass prefix, `current_globals` is exactly the fold of `global`
declarations since the last function-definition event. -/
theorem gvRun_currentGlobals (es : List GVEvent) (st : GVState) :
    (gvRun st es).1.currentGlobals = globalsSinceFrom st.currentGlobals es := by
  induction es generalizing st with
  | nil => rfl
  | cons e es ih =>
    show (gvRun (gvStep st e).1 es).1.currentGlobals = _
    rw [ih]
    cases e with
    | assignEvt ancestors targets value =>
        show globalsSinceFrom _ es = globalsSinceFrom st.currentGlobals es
        congr 1
        by_cases h : isModuleLevel ancestors = true
        · simp only [gvStep, h, if_true]
          exact gv_module_fold_currentGlobals ..
        · simp [gvStep, h]
    | callEvt ancestors func => rfl
    | augAssignEvt ancestors target => rfl
    | subscriptEvt ancestors value ctx => rfl
    | globalEvt ns => rfl
    | funcDefEvt => rfl

/-- C10: along the pre-order traversal the active-globals set holds exactly
the names declared by `global` statements since the most recently visited
function definition (any function-definition event, nested or not, resets it
to empty); consequently a nested-scope assignment to a name that is in
neither the active-globals nor the mutable-globals set emits nothing — in
particular after an intervening nested function definition wiped the
declaration. -/
theorem gv_active_globals_invariant :
    (∀ (es : List GVEvent) (x : String),
       x ∈ (gvRun gvInit es).1.currentGlobals ↔ x ∈ globalsSinceFrom [] es) ∧
    (∀ (st : GVState) ancestors n value, isModuleLevel ancestors = false →
       n ∉ st.currentGlobals → n ∉ st.mutableGlobals →
       (gvStep st (.assignEvt ancestors [.assignName n] value)).2 = []) := by
  constructor
  · intro es x
    rw [gvRun_currentGlobals]
    rfl
  · intro st ancestors n value h1 h2 h3
    simp [gvStep, h1, gvAssignNestedCheck, h2, h3]

/-- Witness for C10: after `global CACHE` was wiped by a traversed nested
function definition, assigning `G` (in neither set) in the outer body emits
nothing. -/
theorem gv_active_globals_invariant_witness :
    (gvStep ⟨["CACHE"], []⟩
      (.assignEvt [.funcDefAnc, .moduleAnc] [.assignName "G"] (.const (.int 1)))).2 = [] :=
  gv_active_globals_invariant.2 ⟨["CACHE"], []⟩ [.funcDefAnc, .moduleAnc] "G"
    (.const (.int 1)) (by decide) (by decide) (by decide)

/-- C4: a dynamic condition is exactly an `if`/`while` ancestor whose test
contains a call node; a module-level assignment under one emits one
diagnostic per name target — whatever the assigned value — and leaves the
state unchanged; a module-level assignment not under one emits nothing, and
when its value is a literal list/dict/set its name targets are appended to
the mutable-globals set instead. -/
theorem gv_dynamic_condition_assign :
    (∀ ancestors, isWithinNonStaticCondition ancestors = true ↔
       ∃ t : Expr, (Anc.ifAnc t ∈ ancestors ∨ Anc.whileAnc t ∈ ancestors) ∧
         t.containsCall = true) ∧
    (∀ (st : GVState) ancestors targets value,
       isModuleLevel ancestors = true → isWithinNonStaticCondition ancestors = true →
       gvStep st (.assignEvt ancestors targets value) =
         (st, (targetNames targets).map (fun n => ⟨"no-global-updates", [n]⟩))) ∧
    (∀ (st : GVState) ancestors targets value,
       isModuleLevel ancestors = true → isWithinNonStaticCondition ancestors = false →
       (gvStep st (.assignEvt ancestors targets value)).2 = [] ∧
       (isMutableLiteral value = true →
          (gvStep st (.assignEvt ancestors targets value)).1.mutableGlobals =
            st.mutableGlobals ++ targetNames targets)) := by
  refine ⟨fun ancestors => ?_, fun st ancestors targets value h1 h2 => ?_,
    fun st ancestors targets value h1 h2 => ⟨?_, fun hm => ?_⟩⟩
  · constructor
    · intro h
      rw [isWithinNonStaticCondition, List.any_eq_true] at h
      obtain ⟨a, ha, hmatch⟩ := h
      cases a with
      | ifAnc t => exact ⟨t, Or.inl ha, hmatch⟩
      | whileAnc t => exact ⟨t, Or.inr ha, hmatch⟩
      | moduleAnc => exact absurd hmatch (by simp)
      | classDefAnc => exact absurd hmatch (by simp)
      | funcDefAnc => exact absurd hmatch (by simp)
      | forAnc => exact absurd hmatch (by simp)
      | tryAnc => exact absurd hmatch (by simp)
      | otherAnc => exact absurd hmatch (by simp)
    · rintro ⟨t, h | h, hc⟩
      · rw [isWithinNonStaticCondition, List.any_eq_true]
        exact ⟨.ifAnc t, h, hc⟩
      · rw [isWithinNonStaticCondition, List.any_eq_true]
        exact ⟨.whileAnc t, h, hc⟩
  · simp only [gvStep, h1, if_true]
    rw [gv_module_fold_dynamic _ _ h2]
    simp
  · simp only [gvStep, h1, if_true]
    exact gv_module_fold_static_snd _ _ h2 ..
  · simp only [gvStep, h1, if_true]
    exact gv_module_fold_static_mut _ _ h2 hm ..

/-- Witness for C4 at `if some_call(): FLAG = 1` at module level: one
diagnostic naming `FLAG`, although the value is an immutable integer. -/
theorem gv_dynamic_condition_assign_witness :
    gvStep gvInit (.assignEvt [.ifAnc (.call (.name "some_call") [] []), .moduleAnc]
      [.assignName "FLAG"] (.const (.int 1))) =
      (gvInit, [⟨"no-global-updates", ["FLAG"]⟩]) :=
  gv_dynamic_condition_assign.2.1 gvInit
    [.ifAnc (.call (.name "some_call") [] []), .moduleAnc]
    [.assignName "FLAG"] (.const (.int 1)) (by decide) (by decide)

/-- C6 counterexample: after `import phantom.ph_engine as pe`, the
module-level call `pe.concatenate(...)` has a member name on the fixed
allow-list, yet the checker emits a diagnostic — the allow-list is consulted
only on the playbook-rules branch, never on the ph_engine branch. -/
theorem playbook_api_counterexample :
    ALLOWLIST_APIS.contains "concatenate" = true ∧
    gpVisitCall (gpVisitImport gpInit [("phantom.ph_engine", some "pe")]) [.moduleAnc]
      (.attribute (.name "pe") "concatenate") =
      [⟨"no-global-playbook-apis", ["pe.concatenate"]⟩] := by
  exact ⟨by decide, by decide⟩

/-- C6 amended: calls outside module level never emit; a non-attribute callee
(whose `attrname` access raises the caught `AttributeError`) never emits; for
a module-level attribute callee the printed receiver is tested against the
two restricted-submodule alias/forbidden-text sets — a ph_engine match always
emits, while a playbook-rules match emits only when the member name is not on
the allow-list (the allow-list exempts only the playbook-rules branch), each
diagnostic naming the printed callee; and `import phantom as ph` synthesizes
`ph.rules` and `ph.ph_engine` as forbidden receiver texts. -/
theorem playbook_api_restriction_amended :
    (∀ (st : GPState) ancestors func, isModuleLevel ancestors = false →
       gpVisitCall st ancestors func = []) ∧
    (∀ (st : GPState) ancestors id, gpVisitCall st ancestors (.name id) = []) ∧
    (∀ (st : GPState) ancestors v s, gpVisitCall st ancestors (.subscript v s) = []) ∧
    (∀ (st : GPState) ancestors recv a, isModuleLevel ancestors = true → a ≠ "" →
       gpVisitCall st ancestors (.attribute recv a) =
         (if st.phEngineForbiddenModules.contains recv.asString
             || st.phEngineApiAliases.contains recv.asString then
            [⟨"no-global-playbook-apis", [(Expr.attribute recv a).asString]⟩]
          else []) ++
         (if (st.playbookForbiddenModules.contains recv.asString
             || st.playbookApiAliases.contains recv.asString)
             && !(ALLOWLIST_APIS.contains a) then
            [⟨"no-global-playbook-apis", [(Expr.attribute recv a).asString]⟩]
          else [])) ∧
    (gpVisitImport gpInit [("phantom", some "ph")]).playbookForbiddenModules =
      ["phantom.rules", "ph.rules"] ∧
    (gpVisitImport gpInit [("phantom", some "ph")]).phEngineForbiddenModules =
      ["phantom.ph_engine", "ph.ph_engine"] := by
  refine ⟨fun st ancestors func h => ?_, fun st ancestors id => ?_,
    fun st ancestors v s => ?_, fun st ancestors recv a h1 h2 => ?_, by decide, by decide⟩
  · simp [gpVisitCall, h]
  · by_cases h : isModuleLevel ancestors = true <;> simp [gpVisitCall, h]
  · by_cases h : isModuleLevel ancestors = true <;> simp [gpVisitCall, h]
  · simp [gpVisitCall, h1, h2]

/-- Witness for C6's amended statement: after `from phantom import rules`, a
module-level `rules.debug(...)` (not allow-listed) emits exactly one
diagnostic naming the callee. -/
theorem playbook_api_restriction_amended_witness :
    gpVisitCall (gpVisitImportFrom gpInit "phantom" [("rules", none)]) [.moduleAnc]
      (.attribute (.name "rules") "debug") =
      [⟨"no-global-playbook-apis", ["rules.debug"]⟩] := by
  rw [playbook_api_restriction_amended.2.2.2.1
    (gpVisitImportFrom gpInit "phantom" [("rules", none)]) [.moduleAnc]
    (.name "rules") "debug" (by decide) (by decide)]
  decide

/-- C9 counterexample: one filesystem-access checker instance analyzing file
A (`import os as q`) and then file B (the call `q.getcwd()`) emits a
diagnostic for B that a freshly constructed instance analyzing B does not:
the alias table carried over from A makes the call resolve to the banned
`os.getcwd`. -/
theorem state_confinement_counterexample :
    (bfRun (flattenBanned FILESYSTEM_BANNED_MAP) FILESYSTEM_MESSAGE
       (bfRun (flattenBanned FILESYSTEM_BANNED_MAP) FILESYSTEM_MESSAGE []
         [.importEvt [("os", some "q")]]).1
       [.callEvt (.attribute (.name "q") "getcwd") [] []]).2 ≠
    (bfRun (flattenBanned FILESYSTEM_BANNED_MAP) FILESYSTEM_MESSAGE []
       [.callEvt (.attribute (.name "q") "getcwd") [] []]).2 := by
  decide

/-- C9 amended: checker state lives for the lifetime of the instance and is
not reset between files, so analyzing B after A with the same instance can
change B's diagnostics; the diagnostic sequence for B matches a fresh
instance's whenever the first file contains no alias-recording events (only
call nodes), and in general exactly when the carried-over alias table equals
the fresh one. -/
theorem state_confinement_amended (banned : List String) (message : String)
    (fileA fileB : List BFEvent) (h : ∀ e ∈ fileA, e.isCallEvt = true) :
    (bfRun banned message (bfRun banned message [] fileA).1 fileB).2 =
      (bfRun banned message [] fileB).2 := by
  rw [bfRun_state_of_calls banned message [] fileA h]

/-- Witness for C9's amended statement: a first file consisting only of a
call leaves the second file's diagnostics identical to a fresh instance's. -/
theorem state_confinement_amended_witness :
    (bfRun (flattenBanned FILESYSTEM_BANNED_MAP) FILESYSTEM_MESSAGE
       (bfRun (flattenBanned FILESYSTEM_BANNED_MAP) FILESYSTEM_MESSAGE []
         [.callEvt (.name "print") [] []]).1
       [.callEvt (.attribute (.name "os") "getcwd") [] []]).2 =
      (bfRun (flattenBanned FILESYSTEM_BANNED_MAP) FILESYSTEM_MESSAGE []
        [.callEvt (.attribute (.name "os") "getcwd") [] []]).2 :=
  state_confinement_amended (flattenBanned FILESYSTEM_BANNED_MAP) FILESYSTEM_MESSAGE
    [.callEvt (.name "print") [] []] [.callEvt (.attribute (.name "os") "getcwd") [] []]
    (by intro e he; rw [List.mem_singleton] at he; rw [he]; rfl)

end SoarLinter
